import Mathlib

/-!
Verification of the qrcode_product pipeline (roster → QR images → workbook merge).

The TypeScript sources are shallowly embedded:
* the filesystem is an explicit state (`FS`): an association list from paths to
  byte lists plus a list of directory paths;
* external library calls that may throw (exceljs `addImage` / `readFile` /
  `writeFile`, the `qrcode` encoder) are resolved by an environment oracle
  (`Env`, `QREnv`) supplied as an argument;
* fallible code returns `Option` / an explicit error field.
-/

/-- File contents: a list of bytes (sizes and equality are all the claims need). -/
abbrev Bytes := List Nat

/-- Filesystem state: files as an association list (first match wins, mirroring a
path-keyed map), plus the set of directories. -/
structure FS where
  files : List (String × Bytes)
  dirs : List String
deriving DecidableEq

/-- Association-list lookup, first match wins. -/
def lookupB : List (String × Bytes) → String → Option Bytes
  | [], _ => none
  | e :: rest, p => if e.1 = p then some e.2 else lookupB rest p

/-- Replace the first entry with the given key, or append a new one
(semantics of `fs.writeFileSync` / `fs.copyFileSync` on the map view). -/
def setEntry : List (String × Bytes) → String → Bytes → List (String × Bytes)
  | [], p, b => [(p, b)]
  | e :: rest, p, b => if e.1 = p then (p, b) :: rest else e :: setEntry rest p b

def FS.readFile (fs : FS) (p : String) : Option Bytes :=
  lookupB fs.files p

def FS.writeFile (fs : FS) (p : String) (b : Bytes) : FS :=
  { fs with files := setEntry fs.files p b }

/-- `fs.existsSync`: true for files and directories alike. -/
def FS.existsF (fs : FS) (p : String) : Bool :=
  (fs.readFile p).isSome || fs.dirs.contains p

/-- `fs.copyFileSync src dst` when `src` is a readable file; identity otherwise
(the caller catches the raised error). -/
def FS.copyFile (fs : FS) (src dst : String) : FS :=
  match fs.readFile src with
  | some b => fs.writeFile dst b
  | none => fs

@[simp] theorem lookupB_setEntry_same (l : List (String × Bytes)) (p : String) (b : Bytes) :
    lookupB (setEntry l p b) p = some b := by
  induction l with
  | nil => simp [setEntry, lookupB]
  | cons e rest ih =>
    by_cases h : e.1 = p
    · simp [setEntry, lookupB, h]
    · simp [setEntry, lookupB, h, ih]

theorem lookupB_setEntry_other (l : List (String × Bytes)) (p q : String) (b : Bytes)
    (hne : q ≠ p) : lookupB (setEntry l p b) q = lookupB l q := by
  have hpq : ¬ p = q := fun h => hne h.symm
  induction l with
  | nil => simp [setEntry, lookupB, hpq]
  | cons e rest ih =>
    by_cases h : e.1 = p
    · simp [setEntry, lookupB, h, hpq]
    · by_cases h2 : e.1 = q <;> simp [setEntry, lookupB, h, h2, hne, ih]

@[simp] theorem FS.readFile_writeFile_same (fs : FS) (p : String) (b : Bytes) :
    (fs.writeFile p b).readFile p = some b := by
  simp [FS.readFile, FS.writeFile]

theorem FS.readFile_writeFile_other (fs : FS) (p q : String) (b : Bytes) (hne : q ≠ p) :
    (fs.writeFile p b).readFile q = fs.readFile q := by
  simp [FS.readFile, FS.writeFile, lookupB_setEntry_other _ _ _ _ hne]

@[simp] theorem FS.dirs_writeFile (fs : FS) (p : String) (b : Bytes) :
    (fs.writeFile p b).dirs = fs.dirs := rfl

/-! ### String helpers (models of the `path` module pieces the sources use) -/

/-- Characters after the last `/` (model of the basename part of a path). -/
def basenameChars (p : List Char) : List Char :=
  (p.reverse.takeWhile (fun c => ¬ c = '/')).reverse

/-- `path.basename`. -/
def basename (p : String) : String :=
  String.mk (basenameChars p.toList)

/-- Extension of a basename: from the last `.` to the end; empty when there is
no `.` or the `.` is the first character (model of `path.extname`). -/
def extnameChars (b : List Char) : List Char :=
  let afterDot := b.reverse.takeWhile (fun c => ¬ c = '.')
  if afterDot.length = b.length then []
  else if afterDot.length + 1 = b.length then []
  else '.' :: afterDot.reverse

def extname (p : String) : String :=
  String.mk (extnameChars (basenameChars p.toList))

/-- ASCII lowercasing (model of JS `toLowerCase()` on the extension strings
the sources feed it). -/
def toLowerCh (c : Char) : Char :=
  if 'A' ≤ c && c ≤ 'Z' then Char.ofNat (c.toNat + 32) else c

def lowerStr (s : String) : String :=
  String.mk (s.toList.map toLowerCh)

/-- Remove the first `.` of a string (JS `s.replace(".", "")`). -/
def removeFirstDot : List Char → List Char
  | [] => []
  | c :: rest => if c = '.' then rest else c :: removeFirstDot rest

/-- Is `pat` a prefix of `s`? -/
def startsWithChars : List Char → List Char → Bool
  | [], _ => true
  | _ :: _, [] => false
  | c :: cs, d :: ds => c = d && startsWithChars cs ds

/-- Replace the first occurrence of `pat` by `rep` (JS `s.replace(pat, rep)`
with a string pattern); `s` is returned unchanged when `pat` does not occur. -/
def replaceFirstChars (s pat rep : List Char) : List Char :=
  match s with
  | [] => []
  | c :: rest =>
    if startsWithChars pat (c :: rest) then rep ++ (c :: rest).drop pat.length
    else c :: replaceFirstChars rest pat rep

def replaceFirst (s pat rep : String) : String :=
  String.mk (replaceFirstChars s.toList pat.toList rep.toList)

/-! ### Cell Address Codec -/

def isUpperAZ (c : Char) : Bool := 'A' ≤ c && c ≤ 'Z'

/-- Column value of a letter run: `col = col*26 + (letter - 'A' + 1)`
left to right, exactly as in `parseCellAddress`. -/
def colVal (cs : List Char) : Nat :=
  cs.foldl (fun acc c => acc * 26 + (c.toNat - 'A'.toNat + 1)) 0

/-- Numeric value of a digit run (model of `parseInt(rowStr, 10)` on an
all-digit string). -/
def digitsVal (cs : List Char) : Nat :=
  cs.foldl (fun acc c => acc * 10 + (c.toNat - '0'.toNat)) 0

/-- `WriteExcelFile.parseCellAddress`: the address must match
`^[A-Z]+[0-9]+$`; the letter run is decoded base-26 (A=1 … Z=26) and the digit
run decimal.  `none` models the thrown invalid-address error. -/
def parseCellAddress (cell : String) : Option (Nat × Nat) :=
  let cs := cell.toList
  let letters := cs.takeWhile isUpperAZ
  let rest := cs.dropWhile isUpperAZ
  if letters.length ≠ 0 && rest.length ≠ 0 && rest.all Char.isDigit then
    some (colVal letters, digitsVal rest)
  else
    none

/-- Modelled from the spec (§4.1): `encode`'s column letters.  The source has no
general encoder (cells are built literally as `G2`, `G3`, …); the spec defines
`encode` by repeated base-26 division with no zero digit, which is this
bijective base-26 printer. -/
def encodeCol (n : Nat) : List Char :=
  if h : n = 0 then []
  else
    have : (n - 1) / 26 < n := Nat.lt_of_le_of_lt (Nat.div_le_self _ _)
      (Nat.sub_lt (Nat.pos_of_ne_zero h) Nat.one_pos)
    encodeCol ((n - 1) / 26) ++ [Char.ofNat ('A'.toNat + (n - 1) % 26)]

/-- Decimal digit printer (the row-number half of the spec's `encode`). -/
def natDigs (n : Nat) : List Char :=
  if h : n < 10 then [Char.ofNat ('0'.toNat + n)]
  else
    have : n / 10 < n := Nat.div_lt_self (Nat.lt_of_lt_of_le (by norm_num) (Nat.le_of_not_lt h)) (by norm_num)
    natDigs (n / 10) ++ [Char.ofNat ('0'.toNat + n % 10)]

/-- Modelled from the spec (§4.1): `encode(column, row)` — base-26 letters
concatenated with the decimal row number. -/
def encode (col row : Nat) : String :=
  String.mk (encodeCol col ++ natDigs row)

/-! ### Data model of `write_excel_file.ts` -/

/-- `ImageOptions` of `write_excel_file.ts`.  The aspect flag is the source's
maintain-aspect option (field renamed to `keepAspect` here). -/
structure ImageOptions where
  imagePath : String
  cell : String
  width : Option Nat := none
  height : Option Nat := none
  keepAspect : Option Bool := none
deriving DecidableEq

/-- `WriteResult` of `write_excel_file.ts`; errors are carried as message
strings. -/
structure WriteResult where
  success : Bool
  fileName : String
  filePath : String
  rowCount : Option Nat := none
  columnCount : Option Nat := none
  worksheetName : Option String := none
  imagesInserted : Option Nat := none
  error : Option String := none
deriving DecidableEq

/-- One image attached to the worksheet by `worksheet.addImage`: registered id,
zero-based top-left anchor and extent (height forced to width when the aspect
flag is set, exactly as in the source). -/
structure Placed where
  imageId : Nat
  tlCol : Int
  tlRow : Int
  width : Nat
  height : Nat
deriving DecidableEq

/-- The in-memory exceljs workbook: bytes it was loaded from, the number of
registered images (`addImage` returns consecutive ids), and the attached
images. -/
structure Workbook where
  origBytes : Bytes
  imageCount : Nat
  placed : List Placed
deriving DecidableEq

/-- Stand-in for xlsx serialization: an injective-enough byte image of the
workbook state; the claims only need that persisting writes *some* bytes
derived from the workbook. -/
def serializeWorkbook (wb : Workbook) : Bytes :=
  wb.origBytes ++ [wb.imageCount, wb.placed.length]

/-- Environment oracle deciding the outcomes of the external (exceljs, clock)
calls a merge performs: the backup timestamp, `path.resolve`, whether
`addImage` by filename throws for a path, whether the base64 fallback
registration throws, whether `workbook.xlsx.readFile` / `writeFile` throw, and
the workbook's sheet names. -/
structure Env where
  ts : String
  resolveAbs : String → String
  filenameFails : String → Bool
  base64Fails : String → Bool
  readFails : Bool
  persistFails : Bool
  sheetNames : List String

/-- `WriteExcelFile.checkFileExists` (`fs.existsSync` wrapped in try/catch). -/
def checkFileExists (fs : FS) (p : String) : Bool :=
  fs.existsF p

def supportedExts : List String := [".png", ".jpg", ".jpeg", ".gif", ".bmp"]

def sizeCeiling : Nat := 10 * 1024 * 1024

/-- `WriteExcelFile.isValidImageFile`: exists → non-empty → at most 10 MiB →
recognized extension.  A path that exists but is not a readable file makes
`statSync` misbehave and ends in the catch-all `false`. -/
def isValidImageFile (fs : FS) (imagePath : String) : Bool :=
  if ¬ fs.existsF imagePath then false
  else
    match fs.readFile imagePath with
    | none => false
    | some bytes =>
      if bytes.length = 0 then false
      else if sizeCeiling < bytes.length then false
      else supportedExts.contains (lowerStr (extname imagePath))

/-- Backup path: first `.xlsx` replaced by `_backup_<timestamp>.xlsx`. -/
def backupName (filePath ts : String) : String :=
  replaceFirst filePath ".xlsx" ("_backup_" ++ ts ++ ".xlsx")

/-- `WriteExcelFile.createBackup`: byte-copy the file to the backup path;
`none` models the caught copy failure (source file unreadable). -/
def createBackup (fs : FS) (filePath ts : String) : FS × Option String :=
  match fs.readFile filePath with
  | some b => (fs.writeFile (backupName filePath ts) b, some (backupName filePath ts))
  | none => (fs, none)

/-- The extension normalization of `insertSingleImage`:
`path.extname(p).toLowerCase().replace(".", "")` then the switch to one of
`jpeg`/`png`/`gif`; `none` models the thrown unsupported-format error. -/
def extNoDot (p : String) : String :=
  String.mk (removeFirstDot (lowerStr (extname p)).toList)

def standardExt (ext : String) : Option String :=
  if ext = "jpg" then some "jpeg"
  else if ext = "jpeg" then some "jpeg"
  else if ext = "png" then some "png"
  else if ext = "gif" then some "gif"
  else none

/-- `WriteExcelFile.insertSingleImage`: parse the cell, normalize the
extension, register the image by filename (primary) or — when that throws —
re-read the bytes and register base64 (fallback), then attach at
(col−1, row−1).  All raised errors are caught and turned into `false`. -/
def insertSingleImage (env : Env) (fs : FS) (wb : Workbook) (img : ImageOptions) :
    Workbook × Bool :=
  let w := img.width.getD 50
  let h := img.height.getD 50
  let keep := img.keepAspect.getD true
  match parseCellAddress img.cell with
  | none => (wb, false)
  | some cellInfo =>
    match standardExt (extNoDot img.imagePath) with
    | none => (wb, false)
    | some _ =>
      let primaryOk := ¬ env.filenameFails (env.resolveAbs img.imagePath)
      let fallbackOk := (fs.readFile img.imagePath).isSome ∧ ¬ env.base64Fails img.imagePath
      if primaryOk ∨ fallbackOk then
        let cfg : Placed :=
          { imageId := wb.imageCount,
            tlCol := (cellInfo.1 : Int) - 1,
            tlRow := (cellInfo.2 : Int) - 1,
            width := w,
            height := if keep then w else h }
        ({ wb with imageCount := wb.imageCount + 1, placed := wb.placed ++ [cfg] }, true)
      else
        (wb, false)

/-- Worksheet selection: by name when given, else the first sheet
(`getWorksheet(1)`); `none` models the worksheet-not-found error. -/
def resolveSheet (env : Env) (wsName : Option String) : Option String :=
  match wsName with
  | some n => if env.sheetNames.contains n then some n else none
  | none => env.sheetNames.head?

def workbookMissingMsg (p : String) : String := "Excel file not found: " ++ p

def readFailMsg : String := "failed to read workbook"

def sheetMissingMsg : String := "worksheet not found"

def persistFailMsg : String := "failed to persist workbook"

/-- The catch handler of `insertImagesSafely`: when a backup path was recorded
and still exists, copy it back over the target; a restore failure is swallowed. -/
def restoreBackup (fs : FS) (excelPath : String) (backupPath : Option String) : FS :=
  match backupPath with
  | some bp => if fs.existsF bp then fs.copyFile bp excelPath else fs
  | none => fs

def mkFail (excelPath msg : String) : WriteResult :=
  { success := false, fileName := basename excelPath, filePath := excelPath,
    error := some msg }

/-- `WriteExcelFile.insertImagesSafely`, steps in source order: existence
check, backup, admission filter (empty set is success with 0 inserted),
workbook load, worksheet resolution, the batched insertion loop (batching and
inter-batch pauses do not change the sequential fold over the admissible
list), persist; any failure after the backup restores it and returns a failure
outcome carrying that error. -/
def insertImagesSafely (env : Env) (fs : FS) (excelPath : String)
    (images : List ImageOptions) (wsName : Option String) : FS × WriteResult :=
  if ¬ checkFileExists fs excelPath then
    (fs, mkFail excelPath (workbookMissingMsg excelPath))
  else
    let bk := createBackup fs excelPath env.ts
    let fs1 := bk.1
    let validImages := images.filter (fun img => isValidImageFile fs1 img.imagePath)
    if validImages.length = 0 then
      (fs1, { success := true, fileName := basename excelPath, filePath := excelPath,
              imagesInserted := some 0 })
    else if env.readFails || (fs1.readFile excelPath).isNone then
      (restoreBackup fs1 excelPath bk.2, mkFail excelPath readFailMsg)
    else
      match resolveSheet env wsName with
      | none => (restoreBackup fs1 excelPath bk.2, mkFail excelPath sheetMissingMsg)
      | some sheet =>
        let wb0 : Workbook :=
          { origBytes := (fs1.readFile excelPath).getD [], imageCount := 0, placed := [] }
        let res := validImages.foldl
          (fun acc img =>
            let s := insertSingleImage env fs1 acc.1 img
            (s.1, acc.2 + (if s.2 then 1 else 0))) (wb0, 0)
        if env.persistFails then
          (restoreBackup fs1 excelPath bk.2, mkFail excelPath persistFailMsg)
        else
          (fs1.writeFile excelPath (serializeWorkbook res.1),
           { success := true, fileName := basename excelPath, filePath := excelPath,
             imagesInserted := some res.2, worksheetName := some sheet })

/-- `WriteExcelFile.insertImages` (legacy entry point): delegates verbatim. -/
def insertImages (env : Env) (fs : FS) (excelPath : String)
    (images : List ImageOptions) (wsName : Option String) : FS × WriteResult :=
  insertImagesSafely env fs excelPath images wsName

/-! ### Placement planner of `index.ts` -/

/-- One roster row; only the identifier (column 0) feeds the planner, the
remaining columns of `StaffData` never influence placement. -/
structure StaffData where
  id : String
deriving DecidableEq

/-- One entry of the `imageConfigs` map of `index.ts`: path
`<folder>/<id>.png` (the resolved absolute path), cell `G<i+2>`, fixed 50×50
sizing with the aspect flag set. -/
def mkImageConfig (folder : String) (i : Nat) (s : StaffData) : ImageOptions :=
  { imagePath := folder ++ "/" ++ s.id ++ ".png",
    cell := "G" ++ String.mk (natDigs (i + 2)),
    width := some 50, height := some 50, keepAspect := some true }

/-- `staffList.map((staff, index) => …)` as an index-threading recursion. -/
def imageConfigsFrom (folder : String) : Nat → List StaffData → List ImageOptions
  | _, [] => []
  | i, s :: rest => mkImageConfig folder i s :: imageConfigsFrom folder (i + 1) rest

def imageConfigsOf (folder : String) (staffList : List StaffData) : List ImageOptions :=
  imageConfigsFrom folder 0 staffList

/-- Steps 5–6 of `index.ts`: build one config per roster row, then keep those
whose image path exists (`checkFileExists`), dropping the rest with a warning. -/
def planPlacements (fs : FS) (folder : String) (staffList : List StaffData) :
    List ImageOptions :=
  (imageConfigsOf folder staffList).filter (fun cfg => checkFileExists fs cfg.imagePath)

/-! ### Identifier image generator (`qrcode.ts`) -/

/-- Oracle for the external `qrcode` encoder: the data URL it encodes an
identifier to and the bytes it writes for it; `none` models a thrown encoder
error. -/
structure QREnv where
  dataURLOf : String → Option String
  fileBytesOf : String → Option Bytes

def encodeFailMsg : String := "Failed to generate QR code"

/-- `QRCodeService.generateQRCode`: ensure the output directory exists
(created when absent; the source resolves it from `__dirname`, modelled here
as the `outDir` argument), materialize `outDir/<id>.png` via the encoder, and
return the *data URL* the encoder produced; any encoder error is caught and
rethrown as the fixed encoding-failure error. -/
def generateQRCode (env : QREnv) (fs : FS) (outDir id : String) :
    FS × Except String String :=
  let fs1 := if fs.existsF outDir then fs else { fs with dirs := fs.dirs ++ [outDir] }
  match env.dataURLOf id with
  | none => (fs1, Except.error encodeFailMsg)
  | some dataUrl =>
    match env.fileBytesOf id with
    | none => (fs1, Except.error encodeFailMsg)
    | some bytes => (fs1.writeFile (outDir ++ "/" ++ id ++ ".png") bytes, Except.ok dataUrl)

/-! ### Directory clearing -/

/-- `p` is a file directly inside `dir`: `dir ++ "/" ++ name` with a nonempty
`name` containing no further separator. -/
def isDirectChild (dir p : String) : Bool :=
  startsWithChars (dir.toList ++ ['/']) p.toList &&
  decide ((p.toList.drop (dir.toList.length + 1)).length ≠ 0) &&
  (p.toList.drop (dir.toList.length + 1)).all (fun c => ¬ c = '/')

/-- Modelled from the spec: `WriteExcelFile.clearFolder` is called by the
pipeline (src/unnamed/part_001) but its body is not among the sources.
Per §4.7 ("full-directory file deletion, not recursive directory removal") and
§8 it deletes every file directly contained in the directory and touches
neither subdirectories nor their contents. -/
def clearFolder (fs : FS) (dir : String) : FS :=
  { fs with files := fs.files.filter (fun e => !(isDirectChild dir e.1)) }

/-! ### Theorems -/

/-- Reading the target back after the backup write still yields the original
bytes (covers the degenerate case where the backup path equals the target). -/
theorem readFile_after_backup (fs : FS) (excelPath ts : String) (b : Bytes)
    (hb : fs.readFile excelPath = some b) :
    (fs.writeFile (backupName excelPath ts) b).readFile excelPath = some b := by
  by_cases h : excelPath = backupName excelPath ts
  · rw [← h]
    simp
  · rw [FS.readFile_writeFile_other _ _ _ _ h]
    exact hb

/-- Claim C10: the legacy entry point `insertImages` returns exactly the result
of `insertImagesSafely` on the same arguments — the two merge entry points are
extensionally equal. -/
theorem insertImages_eq_insertImagesSafely (env : Env) (fs : FS) (excelPath : String)
    (images : List ImageOptions) (wsName : Option String) :
    insertImages env fs excelPath images wsName =
      insertImagesSafely env fs excelPath images wsName := rfl

/-- Claim C2: when the target workbook exists but no input image passes the
admission filter, `insertImagesSafely` returns success with zero images
inserted and no error. -/
theorem merge_empty_admissible_success (env : Env) (fs : FS) (excelPath : String)
    (images : List ImageOptions) (wsName : Option String)
    (hex : checkFileExists fs excelPath = true)
    (hempty : (images.filter (fun img =>
        isValidImageFile (createBackup fs excelPath env.ts).1 img.imagePath)).length = 0) :
    ((insertImagesSafely env fs excelPath images wsName).2.success = true) ∧
    ((insertImagesSafely env fs excelPath images wsName).2.imagesInserted = some 0) ∧
    ((insertImagesSafely env fs excelPath images wsName).2.error = none) := by
  unfold insertImagesSafely
  simp [hex, hempty]

/-- Witness for C2: an existing workbook and an image list whose only entry
fails the admission filter (missing file). -/
theorem merge_empty_admissible_success_witness :
    ((insertImagesSafely
        { ts := "T", resolveAbs := fun p => p, filenameFails := fun _ => false,
          base64Fails := fun _ => false, readFails := false, persistFails := false,
          sheetNames := ["S"] }
        { files := [("b.xlsx", [1, 2])], dirs := [] }
        "b.xlsx" [{ imagePath := "missing.png", cell := "G2" }] (some "S")).2.success = true) ∧
    ((insertImagesSafely
        { ts := "T", resolveAbs := fun p => p, filenameFails := fun _ => false,
          base64Fails := fun _ => false, readFails := false, persistFails := false,
          sheetNames := ["S"] }
        { files := [("b.xlsx", [1, 2])], dirs := [] }
        "b.xlsx" [{ imagePath := "missing.png", cell := "G2" }] (some "S")).2.imagesInserted
      = some 0) := by
  have h := merge_empty_admissible_success
    { ts := "T", resolveAbs := fun p => p, filenameFails := fun _ => false,
      base64Fails := fun _ => false, readFails := false, persistFails := false,
      sheetNames := ["S"] }
    { files := [("b.xlsx", [1, 2])], dirs := [] }
    "b.xlsx" [{ imagePath := "missing.png", cell := "G2" }] (some "S")
    (by decide) (by decide)
  exact ⟨h.1, h.2.1⟩

/-- Claim C8: with no admissible image, the call's only filesystem effect is
the backup copy — the resulting state is exactly the input state with the
backup written, and the target's bytes are unchanged. -/
theorem merge_empty_admissible_frame (env : Env) (fs : FS) (excelPath : String)
    (images : List ImageOptions) (wsName : Option String) (b : Bytes)
    (hb : fs.readFile excelPath = some b)
    (hempty : (images.filter (fun img =>
        isValidImageFile (createBackup fs excelPath env.ts).1 img.imagePath)).length = 0) :
    ((insertImagesSafely env fs excelPath images wsName).1
      = fs.writeFile (backupName excelPath env.ts) b) ∧
    ((insertImagesSafely env fs excelPath images wsName).1.readFile excelPath
      = fs.readFile excelPath) := by
  have hex : checkFileExists fs excelPath = true := by
    simp [checkFileExists, FS.existsF, hb]
  have hempty2 : ∀ a ∈ images,
      isValidImageFile (fs.writeFile (backupName excelPath env.ts) b) a.imagePath = false := by
    intro a ha
    by_contra hval
    rw [Bool.not_eq_false] at hval
    have hmem : a ∈ images.filter (fun img =>
        isValidImageFile (createBackup fs excelPath env.ts).1 img.imagePath) := by
      rw [List.mem_filter]
      exact ⟨ha, by simpa [createBackup, hb] using hval⟩
    rw [List.length_eq_zero.mp hempty] at hmem
    exact List.not_mem_nil a hmem
  constructor
  · unfold insertImagesSafely
    simp [hex, createBackup, hb]
    rw [if_pos hempty2]
  · unfold insertImagesSafely
    simp [hex, createBackup, hb]
    rw [if_pos hempty2]
    simp [hb, readFile_after_backup fs excelPath env.ts b hb]

/-- Witness for C8: concrete state with an existing workbook and one
inadmissible image. -/
theorem merge_empty_admissible_frame_witness :
    ((insertImagesSafely
        { ts := "T", resolveAbs := fun p => p, filenameFails := fun _ => false,
          base64Fails := fun _ => false, readFails := false, persistFails := false,
          sheetNames := ["S"] }
        { files := [("b.xlsx", [1, 2])], dirs := [] }
        "b.xlsx" [{ imagePath := "missing.png", cell := "G2" }] (some "S")).1
      = FS.writeFile { files := [("b.xlsx", [1, 2])], dirs := [] }
          (backupName "b.xlsx" "T") [1, 2]) ∧
    ((insertImagesSafely
        { ts := "T", resolveAbs := fun p => p, filenameFails := fun _ => false,
          base64Fails := fun _ => false, readFails := false, persistFails := false,
          sheetNames := ["S"] }
        { files := [("b.xlsx", [1, 2])], dirs := [] }
        "b.xlsx" [{ imagePath := "missing.png", cell := "G2" }] (some "S")).1.readFile "b.xlsx"
      = FS.readFile { files := [("b.xlsx", [1, 2])], dirs := [] } "b.xlsx") :=
  merge_empty_admissible_frame
    { ts := "T", resolveAbs := fun p => p, filenameFails := fun _ => false,
      base64Fails := fun _ => false, readFails := false, persistFails := false,
      sheetNames := ["S"] }
    { files := [("b.xlsx", [1, 2])], dirs := [] }
    "b.xlsx" [{ imagePath := "missing.png", cell := "G2" }] (some "S") [1, 2]
    (by decide) (by decide)

/-- Whether one placement inserts successfully; the outcome of
`insertSingleImage` never depends on the workbook accumulator, so it is
evaluated on the empty workbook. -/
def insertOk (env : Env) (fs : FS) (img : ImageOptions) : Bool :=
  (insertSingleImage env fs { origBytes := [], imageCount := 0, placed := [] } img).2

/-- The success flag of `insertSingleImage` is independent of the workbook. -/
theorem insertSingleImage_snd_eq_insertOk (env : Env) (fs : FS) (wb : Workbook)
    (img : ImageOptions) :
    (insertSingleImage env fs wb img).2 = insertOk env fs img := by
  unfold insertOk insertSingleImage
  cases hp : parseCellAddress img.cell
  · rfl
  · cases he : standardExt (extNoDot img.imagePath)
    · simp
    · simp only [apply_ite Prod.snd]

/-- The insertion fold counts exactly the placements for which
`insertSingleImage` succeeds. -/
theorem foldl_insert_count (env : Env) (fs : FS) (l : List ImageOptions)
    (wb : Workbook) (k : Nat) :
    (l.foldl (fun acc img =>
        let s := insertSingleImage env fs acc.1 img
        (s.1, acc.2 + (if s.2 then 1 else 0))) (wb, k)).2
      = k + l.countP (insertOk env fs) := by
  induction l generalizing wb k with
  | nil => simp
  | cons x xs ih =>
    simp only [List.foldl_cons, List.countP_cons]
    rw [ih]
    rw [insertSingleImage_snd_eq_insertOk]
    cases hx : insertOk env fs x
    · simp [hx]
    · simp [hx]
      omega

/-- Characterization of a merge that reaches the insertion loop and persists:
the outcome is success with `imagesInserted` equal to the number of admissible
placements whose insertion (primary or fallback) succeeded. -/
theorem insertImagesSafely_success_eq (env : Env) (fs : FS) (excelPath : String)
    (images : List ImageOptions) (wsName : Option String) (sheet : String) (b : Bytes)
    (hb : fs.readFile excelPath = some b)
    (hlen : (images.filter (fun img =>
        isValidImageFile (createBackup fs excelPath env.ts).1 img.imagePath)).length ≠ 0)
    (hread : env.readFails = false)
    (hsheet : resolveSheet env wsName = some sheet)
    (hpersist : env.persistFails = false) :
    (insertImagesSafely env fs excelPath images wsName).2 =
      { success := true, fileName := basename excelPath, filePath := excelPath,
        imagesInserted := some ((images.filter (fun img =>
          isValidImageFile (fs.writeFile (backupName excelPath env.ts) b) img.imagePath)).countP
            (insertOk env (fs.writeFile (backupName excelPath env.ts) b))),
        worksheetName := some sheet } := by
  have hex : checkFileExists fs excelPath = true := by
    simp [checkFileExists, FS.existsF, hb]
  have hread2 : (fs.writeFile (backupName excelPath env.ts) b).readFile excelPath = some b :=
    readFile_after_backup fs excelPath env.ts b hb
  have hlen2 : ¬ (∀ a ∈ images,
      isValidImageFile (fs.writeFile (backupName excelPath env.ts) b) a.imagePath = false) := by
    intro hall
    apply hlen
    rw [List.length_eq_zero]
    rw [List.filter_eq_nil_iff]
    intro a ha
    simp [createBackup, hb, hall a ha]
  unfold insertImagesSafely
  simp [hex, createBackup, hb, hread, hsheet, hpersist, hread2]
  rw [if_neg hlen2]
  simp [hread, hread2, hsheet, hpersist, foldl_insert_count]

/-- Claim C9: whenever the returned outcome carries `imagesInserted = n`, then
`n` is at most the number of admissible images, which is at most the length of
the input list. -/
theorem merge_inserted_count_bounds (env : Env) (fs : FS) (excelPath : String)
    (images : List ImageOptions) (wsName : Option String) (n : Nat)
    (h : (insertImagesSafely env fs excelPath images wsName).2.imagesInserted = some n) :
    n ≤ (images.filter (fun img =>
        isValidImageFile (createBackup fs excelPath env.ts).1 img.imagePath)).length ∧
    (images.filter (fun img =>
        isValidImageFile (createBackup fs excelPath env.ts).1 img.imagePath)).length
      ≤ images.length := by
  refine ⟨?_, List.length_filter_le _ _⟩
  by_cases hex : checkFileExists fs excelPath = true
  case neg =>
    unfold insertImagesSafely at h
    simp [hex, mkFail] at h
  case pos =>
    unfold insertImagesSafely at h
    rw [if_neg (by simp [hex])] at h
    cases hcb : fs.readFile excelPath with
    | some b =>
      have hread2 : (fs.writeFile (backupName excelPath env.ts) b).readFile excelPath
          = some b := readFile_after_backup fs excelPath env.ts b hcb
      simp only [createBackup, hcb] at h ⊢
      by_cases hlen0 : (images.filter (fun img =>
          isValidImageFile (fs.writeFile (backupName excelPath env.ts) b) img.imagePath)).length
            = 0
      · rw [if_pos hlen0] at h
        simp at h
        omega
      · rw [if_neg hlen0] at h
        by_cases hrf : env.readFails = true
        · simp [hrf, mkFail] at h
        · simp only [Bool.not_eq_true] at hrf
          simp [hrf, hread2] at h
          cases hrs : resolveSheet env wsName with
          | none => simp [hrs, mkFail] at h
          | some sheet =>
            simp only [hrs] at h
            by_cases hpf : env.persistFails = true
            · simp [hpf, mkFail] at h
            · simp [hpf, foldl_insert_count] at h
              have hle := List.countP_le_length
                (insertOk env (fs.writeFile (backupName excelPath env.ts) b))
                (l := images.filter (fun img =>
                  isValidImageFile (fs.writeFile (backupName excelPath env.ts) b) img.imagePath))
              omega
    | none =>
      simp only [createBackup, hcb] at h ⊢
      by_cases hlen0 : (images.filter (fun img => isValidImageFile fs img.imagePath)).length = 0
      · rw [if_pos hlen0] at h
        simp at h
        omega
      · rw [if_neg hlen0] at h
        simp [hcb, mkFail] at h

/-- Witness for C9: a merge returning `imagesInserted = 0` on an empty input
list. -/
theorem merge_inserted_count_bounds_witness :
    0 ≤ (([] : List ImageOptions).filter (fun img =>
        isValidImageFile (createBackup { files := [("b.xlsx", [1, 2])], dirs := [] }
          "b.xlsx" "T").1 img.imagePath)).length ∧
    (([] : List ImageOptions).filter (fun img =>
        isValidImageFile (createBackup { files := [("b.xlsx", [1, 2])], dirs := [] }
          "b.xlsx" "T").1 img.imagePath)).length ≤ ([] : List ImageOptions).length :=
  merge_inserted_count_bounds
    { ts := "T", resolveAbs := fun p => p, filenameFails := fun _ => false,
      base64Fails := fun _ => false, readFails := false, persistFails := false,
      sheetNames := ["S"] }
    { files := [("b.xlsx", [1, 2])], dirs := [] }
    "b.xlsx" [] (some "S") 0 (by decide)

/-- Claim C3: a placement whose primary (register-by-path) strategy throws but
whose base64 fallback succeeds still inserts — it counts toward
`imagesInserted` and the merge returns success with no error. -/
theorem fallback_success_counts (env : Env) (fs : FS) (excelPath : String)
    (images : List ImageOptions) (wsName : Option String) (sheet : String) (b : Bytes)
    (img : ImageOptions)
    (hb : fs.readFile excelPath = some b)
    (hmem : img ∈ images.filter (fun i =>
        isValidImageFile (fs.writeFile (backupName excelPath env.ts) b) i.imagePath))
    (hread : env.readFails = false)
    (hsheet : resolveSheet env wsName = some sheet)
    (hpersist : env.persistFails = false)
    (hcell : (parseCellAddress img.cell).isSome = true)
    (hext : (standardExt (extNoDot img.imagePath)).isSome = true)
    (hprim : env.filenameFails (env.resolveAbs img.imagePath) = true)
    (hfbRead : ((fs.writeFile (backupName excelPath env.ts) b).readFile img.imagePath).isSome
      = true)
    (hfbReg : env.base64Fails img.imagePath = false) :
    insertOk env (fs.writeFile (backupName excelPath env.ts) b) img = true ∧
    (insertImagesSafely env fs excelPath images wsName).2.success = true ∧
    (insertImagesSafely env fs excelPath images wsName).2.error = none ∧
    ∃ k, (insertImagesSafely env fs excelPath images wsName).2.imagesInserted = some k ∧
      1 ≤ k := by
  have hfs1 : (createBackup fs excelPath env.ts).1
      = fs.writeFile (backupName excelPath env.ts) b := by
    simp [createBackup, hb]
  have hOk : insertOk env (fs.writeFile (backupName excelPath env.ts) b) img = true := by
    unfold insertOk insertSingleImage
    obtain ⟨ci, hci⟩ := Option.isSome_iff_exists.mp hcell
    obtain ⟨se, hse⟩ := Option.isSome_iff_exists.mp hext
    simp only [hci, hse]
    simp [hprim, hfbRead, hfbReg]
  have hlen : (images.filter (fun i =>
      isValidImageFile (createBackup fs excelPath env.ts).1 i.imagePath)).length ≠ 0 := by
    rw [hfs1]
    intro h0
    rw [List.length_eq_zero] at h0
    rw [h0] at hmem
    exact List.not_mem_nil _ hmem
  have heq := insertImagesSafely_success_eq env fs excelPath images wsName sheet b
    hb hlen hread hsheet hpersist
  refine ⟨hOk, by rw [heq], by rw [heq], ?_⟩
  refine ⟨_, by rw [heq], ?_⟩
  have hpos : 0 < (images.filter (fun i =>
      isValidImageFile (fs.writeFile (backupName excelPath env.ts) b) i.imagePath)).countP
        (insertOk env (fs.writeFile (backupName excelPath env.ts) b)) :=
    List.countP_pos_iff.mpr ⟨img, hmem, hOk⟩
  omega

/-- Concrete environment for the C3 witness: primary registration always
throws, the fallback always succeeds. -/
def envC3 : Env :=
  { ts := "T", resolveAbs := fun p => p, filenameFails := fun _ => true,
    base64Fails := fun _ => false, readFails := false, persistFails := false,
    sheetNames := ["S"] }

def fsC3 : FS := { files := [("b.xlsx", [1, 2]), ("img.png", [7])], dirs := [] }

def imgC3 : ImageOptions := { imagePath := "img.png", cell := "G2" }

/-- Witness for C3: one admissible image whose primary strategy throws and
whose fallback succeeds; the merge succeeds and counts it. -/
theorem fallback_success_counts_witness :
    insertOk envC3 (fsC3.writeFile (backupName "b.xlsx" envC3.ts) [1, 2]) imgC3 = true ∧
    (insertImagesSafely envC3 fsC3 "b.xlsx" [imgC3] (some "S")).2.success = true ∧
    (insertImagesSafely envC3 fsC3 "b.xlsx" [imgC3] (some "S")).2.error = none ∧
    ∃ k, (insertImagesSafely envC3 fsC3 "b.xlsx" [imgC3] (some "S")).2.imagesInserted
        = some k ∧ 1 ≤ k :=
  fallback_success_counts envC3 fsC3 "b.xlsx" [imgC3] (some "S") "S" [1, 2] imgC3
    (by decide) (by decide) (by decide) (by decide) (by decide) (by decide) (by decide)
    (by decide) (by decide) (by decide)

/-- Claim C1: when the backup was created and persisting the workbook throws,
the merge restores the backup over the target — afterwards the target's bytes
equal the backup artifact's bytes (both the original contents) — and returns a
failure outcome carrying the persist error. -/
theorem persist_failure_rolls_back (env : Env) (fs : FS) (excelPath : String)
    (images : List ImageOptions) (wsName : Option String) (sheet : String) (b : Bytes)
    (hb : fs.readFile excelPath = some b)
    (hlen : (images.filter (fun img =>
        isValidImageFile (createBackup fs excelPath env.ts).1 img.imagePath)).length ≠ 0)
    (hread : env.readFails = false)
    (hsheet : resolveSheet env wsName = some sheet)
    (hpersist : env.persistFails = true) :
    ((insertImagesSafely env fs excelPath images wsName).1.readFile excelPath = some b) ∧
    ((insertImagesSafely env fs excelPath images wsName).1.readFile
        (backupName excelPath env.ts) = some b) ∧
    ((insertImagesSafely env fs excelPath images wsName).2.success = false) ∧
    ((insertImagesSafely env fs excelPath images wsName).2.error = some persistFailMsg) := by
  have hex : checkFileExists fs excelPath = true := by
    simp [checkFileExists, FS.existsF, hb]
  have hread2 : (fs.writeFile (backupName excelPath env.ts) b).readFile excelPath = some b :=
    readFile_after_backup fs excelPath env.ts b hb
  have hlen2 : (images.filter (fun img =>
      isValidImageFile (fs.writeFile (backupName excelPath env.ts) b) img.imagePath)).length
        ≠ 0 := by
    simpa [createBackup, hb] using hlen
  have hres : insertImagesSafely env fs excelPath images wsName
      = ((fs.writeFile (backupName excelPath env.ts) b).writeFile excelPath b,
         mkFail excelPath persistFailMsg) := by
    unfold insertImagesSafely
    rw [if_neg (by simp [hex])]
    simp only [createBackup, hb]
    rw [if_neg hlen2]
    simp [hread, hread2, hsheet, hpersist, restoreBackup, FS.existsF, FS.copyFile]
  refine ⟨?_, ?_, ?_, ?_⟩ <;> rw [hres]
  · simp
  · by_cases hbe : backupName excelPath env.ts = excelPath
    · rw [hbe]
      simp
    · rw [FS.readFile_writeFile_other _ _ _ _ hbe]
      simp
  · simp [mkFail]
  · simp [mkFail]

/-- Concrete environment for the C1 witness: everything succeeds except the
final persist, which throws. -/
def envC1 : Env :=
  { ts := "T", resolveAbs := fun p => p, filenameFails := fun _ => false,
    base64Fails := fun _ => false, readFails := false, persistFails := true,
    sheetNames := ["S"] }

def fsC1 : FS := { files := [("b.xlsx", [1, 2]), ("img.png", [7])], dirs := [] }

def imgC1 : ImageOptions := { imagePath := "img.png", cell := "G2" }

/-- Witness for C1: one admissible image, persist throws, rollback restores the
original bytes. -/
theorem persist_failure_rolls_back_witness :
    ((insertImagesSafely envC1 fsC1 "b.xlsx" [imgC1] (some "S")).1.readFile "b.xlsx"
      = some [1, 2]) ∧
    ((insertImagesSafely envC1 fsC1 "b.xlsx" [imgC1] (some "S")).1.readFile
        (backupName "b.xlsx" envC1.ts) = some [1, 2]) ∧
    ((insertImagesSafely envC1 fsC1 "b.xlsx" [imgC1] (some "S")).2.success = false) ∧
    ((insertImagesSafely envC1 fsC1 "b.xlsx" [imgC1] (some "S")).2.error
      = some persistFailMsg) :=
  persist_failure_rolls_back envC1 fsC1 "b.xlsx" [imgC1] (some "S") "S" [1, 2]
    (by decide) (by decide) (by decide) (by decide) (by decide)

/-! ### Cell address codec round-trip (C4) -/

theorem colVal_append (xs : List Char) (c : Char) :
    colVal (xs ++ [c]) = colVal xs * 26 + (c.toNat - 'A'.toNat + 1) := by
  simp [colVal, List.foldl_append]

theorem digitsVal_append (xs : List Char) (c : Char) :
    digitsVal (xs ++ [c]) = digitsVal xs * 10 + (c.toNat - '0'.toNat) := by
  simp [digitsVal, List.foldl_append]

theorem encodeChar_spec (r : Nat) (hr : r < 26) :
    isUpperAZ (Char.ofNat ('A'.toNat + r)) = true ∧
    (Char.ofNat ('A'.toNat + r)).toNat - 'A'.toNat + 1 = r + 1 := by
  interval_cases r <;> exact ⟨by decide, by decide⟩

theorem digitChar_spec (r : Nat) (hr : r < 10) :
    Char.isDigit (Char.ofNat ('0'.toNat + r)) = true ∧
    isUpperAZ (Char.ofNat ('0'.toNat + r)) = false ∧
    (Char.ofNat ('0'.toNat + r)).toNat - '0'.toNat = r := by
  interval_cases r <;> exact ⟨by decide, by decide, by decide⟩

theorem encodeCol_eq_pos (n : Nat) (h : n ≠ 0) :
    encodeCol n = encodeCol ((n - 1) / 26) ++ [Char.ofNat ('A'.toNat + (n - 1) % 26)] := by
  rw [encodeCol]
  simp [h]

theorem natDigs_eq_lt (n : Nat) (h : n < 10) : natDigs n = [Char.ofNat ('0'.toNat + n)] := by
  rw [natDigs]
  simp [h]

theorem natDigs_eq_ge (n : Nat) (h : ¬ n < 10) :
    natDigs n = natDigs (n / 10) ++ [Char.ofNat ('0'.toNat + n % 10)] := by
  rw [natDigs]
  simp [h]

theorem colVal_encodeCol (n : Nat) : colVal (encodeCol n) = n := by
  induction n using Nat.strong_induction_on with
  | _ n ih =>
    by_cases h : n = 0
    · subst h
      rw [encodeCol]
      simp [colVal]
    · have hlt : (n - 1) / 26 < n := Nat.lt_of_le_of_lt (Nat.div_le_self _ _)
        (Nat.sub_lt (Nat.pos_of_ne_zero h) Nat.one_pos)
      rw [encodeCol_eq_pos n h, colVal_append, ih _ hlt,
        (encodeChar_spec _ (Nat.mod_lt _ (by norm_num))).2]
      omega

theorem digitsVal_natDigs (n : Nat) : digitsVal (natDigs n) = n := by
  induction n using Nat.strong_induction_on with
  | _ n ih =>
    by_cases h : n < 10
    · rw [natDigs_eq_lt n h]
      have hd := (digitChar_spec n h).2.2
      simpa [digitsVal] using hd
    · have hlt : n / 10 < n := Nat.div_lt_self (by omega) (by norm_num)
      rw [natDigs_eq_ge n h, digitsVal_append, ih _ hlt,
        (digitChar_spec _ (Nat.mod_lt _ (by norm_num))).2.2]
      omega

theorem encodeCol_upper (n : Nat) : ∀ c ∈ encodeCol n, isUpperAZ c = true := by
  induction n using Nat.strong_induction_on with
  | _ n ih =>
    by_cases h : n = 0
    · subst h
      rw [encodeCol]
      simp
    · have hlt : (n - 1) / 26 < n := Nat.lt_of_le_of_lt (Nat.div_le_self _ _)
        (Nat.sub_lt (Nat.pos_of_ne_zero h) Nat.one_pos)
      rw [encodeCol_eq_pos n h]
      intro c hc
      rcases List.mem_append.mp hc with hc2 | hc2
      · exact ih _ hlt c hc2
      · rw [List.mem_singleton.mp hc2]
        exact (encodeChar_spec _ (Nat.mod_lt _ (by norm_num))).1

theorem natDigs_digit (n : Nat) :
    ∀ c ∈ natDigs n, Char.isDigit c = true ∧ isUpperAZ c = false := by
  induction n using Nat.strong_induction_on with
  | _ n ih =>
    by_cases h : n < 10
    · rw [natDigs_eq_lt n h]
      intro c hc
      rw [List.mem_singleton.mp hc]
      exact ⟨(digitChar_spec n h).1, (digitChar_spec n h).2.1⟩
    · have hlt : n / 10 < n := Nat.div_lt_self (by omega) (by norm_num)
      rw [natDigs_eq_ge n h]
      intro c hc
      rcases List.mem_append.mp hc with hc2 | hc2
      · exact ih _ hlt c hc2
      · rw [List.mem_singleton.mp hc2]
        exact ⟨(digitChar_spec _ (Nat.mod_lt _ (by norm_num))).1,
          (digitChar_spec _ (Nat.mod_lt _ (by norm_num))).2.1⟩

theorem natDigs_ne_nil (n : Nat) : natDigs n ≠ [] := by
  by_cases h : n < 10
  · rw [natDigs_eq_lt n h]
    simp
  · rw [natDigs_eq_ge n h]
    simp

theorem encodeCol_ne_nil (n : Nat) (h : n ≠ 0) : encodeCol n ≠ [] := by
  rw [encodeCol_eq_pos n h]
  simp

theorem takeWhile_append_all (p : Char → Bool) (xs ys : List Char)
    (h : ∀ c ∈ xs, p c = true) :
    (xs ++ ys).takeWhile p = xs ++ ys.takeWhile p := by
  induction xs with
  | nil => simp
  | cons x xt ih =>
    have hx := h x (List.mem_cons_self _ _)
    simp only [List.cons_append, List.takeWhile_cons, hx, if_true]
    rw [ih fun c hc => h c (List.mem_cons_of_mem _ hc)]

theorem dropWhile_append_all (p : Char → Bool) (xs ys : List Char)
    (h : ∀ c ∈ xs, p c = true) :
    (xs ++ ys).dropWhile p = ys.dropWhile p := by
  induction xs with
  | nil => simp
  | cons x xt ih =>
    have hx := h x (List.mem_cons_self _ _)
    simp only [List.cons_append, List.dropWhile_cons, hx, if_true]
    exact ih fun c hc => h c (List.mem_cons_of_mem _ hc)

theorem takeWhile_eq_nil_all (p : Char → Bool) (ys : List Char)
    (h : ∀ c ∈ ys, p c = false) : ys.takeWhile p = [] := by
  cases ys with
  | nil => rfl
  | cons y yt => simp [List.takeWhile_cons, h y (List.mem_cons_self _ _)]

theorem dropWhile_eq_self_all (p : Char → Bool) (ys : List Char)
    (h : ∀ c ∈ ys, p c = false) : ys.dropWhile p = ys := by
  cases ys with
  | nil => rfl
  | cons y yt => simp [List.dropWhile_cons, h y (List.mem_cons_self _ _)]

/-- Decoding an encoded address recovers the column and row. -/
theorem parse_encode (col row : Nat) (hc : col ≠ 0) :
    parseCellAddress (encode col row) = some (col, row) := by
  unfold parseCellAddress encode
  have htake : (encodeCol col ++ natDigs row).takeWhile isUpperAZ = encodeCol col := by
    rw [takeWhile_append_all isUpperAZ _ _ (encodeCol_upper col),
      takeWhile_eq_nil_all isUpperAZ _ (fun c hcm => (natDigs_digit row c hcm).2),
      List.append_nil]
  have hdrop : (encodeCol col ++ natDigs row).dropWhile isUpperAZ = natDigs row := by
    rw [dropWhile_append_all isUpperAZ _ _ (encodeCol_upper col),
      dropWhile_eq_self_all isUpperAZ _ (fun c hcm => (natDigs_digit row c hcm).2)]
  have hto : (String.mk (encodeCol col ++ natDigs row)).toList
      = encodeCol col ++ natDigs row := rfl
  rw [hto]
  simp only [htake, hdrop]
  rw [if_pos]
  · rw [colVal_encodeCol, digitsVal_natDigs]
  · refine (Bool.and_eq_true _ _).mpr ⟨(Bool.and_eq_true _ _).mpr ⟨?_, ?_⟩, ?_⟩
    · simp [List.length_eq_zero, encodeCol_ne_nil col hc]
    · simp [List.length_eq_zero, natDigs_ne_nil row]
    · rw [List.all_eq_true]
      exact fun c hcm => (natDigs_digit row c hcm).1

/-- Claim C4: for every valid address `A1`..`ZZ9999` (column 1..702, row
1..9999), decoding the encoded address yields the pair back, and re-encoding
the decoded pair yields the address back. -/
theorem codec_roundtrip (col row : Nat) (h1 : 1 ≤ col) (h2 : col ≤ 702)
    (h3 : 1 ≤ row) (h4 : row ≤ 9999) :
    parseCellAddress (encode col row) = some (col, row) ∧
    (parseCellAddress (encode col row)).map (fun p => encode p.1 p.2)
      = some (encode col row) := by
  have h := parse_encode col row (by omega)
  constructor
  · exact h
  · rw [h]
    rfl

/-- Witness for C4: the concrete address `G2`. -/
theorem codec_roundtrip_witness :
    parseCellAddress (encode 7 2) = some (7, 2) ∧
    (parseCellAddress (encode 7 2)).map (fun p => encode p.1 p.2)
      = some (encode 7 2) :=
  codec_roundtrip 7 2 (by decide) (by decide) (by decide) (by decide)

/-! ### Placement planner (C5) -/

theorem imageConfigsFrom_getElem (folder : String) (l : List StaffData) (k i : Nat) :
    (imageConfigsFrom folder k l)[i]?
      = (l[i]?).map (fun s => mkImageConfig folder (k + i) s) := by
  induction l generalizing k i with
  | nil => simp [imageConfigsFrom]
  | cons s rest ih =>
    cases i with
    | zero => simp [imageConfigsFrom]
    | succ j =>
      have hki : k + (j + 1) = (k + 1) + j := by omega
      simp [imageConfigsFrom, ih (k + 1) j, hki]

theorem imageConfigsFrom_length (folder : String) (l : List StaffData) (k : Nat) :
    (imageConfigsFrom folder k l).length = l.length := by
  induction l generalizing k with
  | nil => rfl
  | cons s rest ih => simp [imageConfigsFrom, ih (k + 1)]

/-- Counterexample to C5 as stated: an image file that exists but is empty
(admission filter rejects it) is still emitted by the planner, because the
planner filters by bare existence only. -/
theorem planner_emits_inadmissible :
    planPlacements { files := [("qr/E001.png", [])], dirs := ["qr"] } "qr" [{ id := "E001" }]
      = [mkImageConfig "qr" 0 { id := "E001" }] ∧
    isValidImageFile { files := [("qr/E001.png", [])], dirs := ["qr"] }
      (mkImageConfig "qr" 0 { id := "E001" }).imagePath = false :=
  ⟨rfl, by decide⟩

/-- Claim C5 (amended): for roster row *i* the planner produces the config with
path `folder/<id>.png` and cell `G<i+2>`, and a placement is emitted for a row
if and only if its image path exists on disk (`checkFileExists`); rows whose
path is missing are dropped without affecting the other rows.  (The full
admission filter — size and format — is applied later, inside the merge.) -/
theorem planner_plan_spec (fs : FS) (folder : String) (l : List StaffData) :
    (∀ i s, l[i]? = some s →
      (imageConfigsOf folder l)[i]? = some (mkImageConfig folder i s) ∧
      (mkImageConfig folder i s).cell = "G" ++ String.mk (natDigs (i + 2)) ∧
      (mkImageConfig folder i s).imagePath = folder ++ "/" ++ s.id ++ ".png") ∧
    ((imageConfigsOf folder l).length = l.length) ∧
    (∀ cfg, cfg ∈ planPlacements fs folder l ↔
      (cfg ∈ imageConfigsOf folder l ∧ checkFileExists fs cfg.imagePath = true)) := by
  refine ⟨?_, imageConfigsFrom_length folder l 0, ?_⟩
  · intro i s hs
    refine ⟨?_, rfl, rfl⟩
    rw [imageConfigsOf, imageConfigsFrom_getElem folder l 0 i, hs]
    simp
  · intro cfg
    constructor
    · intro hm
      exact ⟨(List.mem_filter.mp hm).1, (List.mem_filter.mp hm).2⟩
    · intro hm
      exact List.mem_filter.mpr ⟨hm.1, hm.2⟩

/-- Witness for C5 (amended): one roster row with an existing image file; the
config appears at index 0 and is kept by the plan. -/
theorem planner_plan_spec_witness :
    (imageConfigsOf "qr" [{ id := "E001" }])[0]?
      = some (mkImageConfig "qr" 0 { id := "E001" }) ∧
    mkImageConfig "qr" 0 { id := "E001" }
      ∈ planPlacements { files := [("qr/E001.png", [7])], dirs := ["qr"] } "qr"
          [{ id := "E001" }] := by
  have h := planner_plan_spec { files := [("qr/E001.png", [7])], dirs := ["qr"] } "qr"
    [{ id := "E001" }]
  refine ⟨(h.1 0 { id := "E001" } (by decide)).1, ?_⟩
  exact (h.2.2 (mkImageConfig "qr" 0 { id := "E001" })).mpr
    ⟨List.mem_singleton_self _, by decide⟩

/-! ### Identifier image generator (C6) -/

theorem existsF_mkdir (fs : FS) (outDir : String) :
    (if fs.existsF outDir then fs
     else { fs with dirs := fs.dirs ++ [outDir] }).existsF outDir = true := by
  by_cases h : fs.existsF outDir = true
  · rw [if_pos h]
    exact h
  · rw [if_neg h]
    simp [FS.existsF, FS.readFile]

theorem existsF_writeFile_mono (fs : FS) (p q : String) (b : Bytes)
    (h : fs.existsF q = true) : (fs.writeFile p b).existsF q = true := by
  by_cases hpq : q = p
  · subst hpq
    simp [FS.existsF]
  · simpa [FS.existsF, FS.readFile_writeFile_other fs p q b hpq] using h

/-- Counterexample to C6 as stated: on a successful run the generator returns
the encoder's data-URL string, which is not the materialized file's path. -/
theorem generateQRCode_returns_dataURL :
    (generateQRCode
        { dataURLOf := fun _ => some "dataurl", fileBytesOf := fun _ => some [1] }
        { files := [], dirs := [] } "out" "E1").2 = Except.ok "dataurl" ∧
    "dataurl" ≠ "out" ++ "/" ++ "E1" ++ ".png" :=
  ⟨rfl, by decide⟩

/-- Claim C6 (amended): the generator ensures the output directory exists,
materializes the image at `outDir/<identifier>.png` via the external encoder,
and returns the encoder's *data URL* (not the path); when the encoder errors it
fails with the fixed encoding-failure error instead of returning. -/
theorem generateQRCode_spec (env : QREnv) (fs : FS) (outDir id : String) :
    ((generateQRCode env fs outDir id).1.existsF outDir = true) ∧
    (∀ u b, env.dataURLOf id = some u → env.fileBytesOf id = some b →
      (generateQRCode env fs outDir id).2 = Except.ok u ∧
      (generateQRCode env fs outDir id).1.readFile (outDir ++ "/" ++ id ++ ".png")
        = some b) ∧
    ((env.dataURLOf id = none ∨ env.fileBytesOf id = none) →
      (generateQRCode env fs outDir id).2 = Except.error encodeFailMsg) := by
  cases hu : env.dataURLOf id with
  | none =>
    refine ⟨?_, ?_, ?_⟩
    · simp only [generateQRCode, hu]
      exact existsF_mkdir fs outDir
    · intro u b hu2 hb2
      exact absurd hu2 (by simp)
    · intro h
      simp only [generateQRCode, hu]
  | some u0 =>
    cases hb : env.fileBytesOf id with
    | none =>
      refine ⟨?_, ?_, ?_⟩
      · simp only [generateQRCode, hu, hb]
        exact existsF_mkdir fs outDir
      · intro u b hu2 hb2
        exact absurd hb2 (by simp)
      · intro h
        simp only [generateQRCode, hu, hb]
    | some b0 =>
      refine ⟨?_, ?_, ?_⟩
      · simp only [generateQRCode, hu, hb]
        exact existsF_writeFile_mono _ _ _ _ (existsF_mkdir fs outDir)
      · intro u b hu2 hb2
        cases hu2
        cases hb2
        constructor
        · simp only [generateQRCode, hu, hb]
        · simp only [generateQRCode, hu, hb]
          simp
      · intro h
        simp at h

/-- Witness for C6 (amended): a concrete successful generation. -/
theorem generateQRCode_spec_witness :
    ((generateQRCode
        { dataURLOf := fun _ => some "dataurl", fileBytesOf := fun _ => some [1] }
        { files := [], dirs := [] } "out" "E1").1.existsF "out" = true) ∧
    ((generateQRCode
        { dataURLOf := fun _ => some "dataurl", fileBytesOf := fun _ => some [1] }
        { files := [], dirs := [] } "out" "E1").2 = Except.ok "dataurl") ∧
    ((generateQRCode
        { dataURLOf := fun _ => some "dataurl", fileBytesOf := fun _ => some [1] }
        { files := [], dirs := [] } "out" "E1").1.readFile "out/E1.png" = some [1]) := by
  have h := generateQRCode_spec
    { dataURLOf := fun _ => some "dataurl", fileBytesOf := fun _ => some [1] }
    { files := [], dirs := [] } "out" "E1"
  exact ⟨h.1, (h.2.1 "dataurl" [1] rfl rfl).1, (h.2.1 "dataurl" [1] rfl rfl).2⟩

/-! ### Directory clearing (C7) -/

theorem lookupB_filter_child_none (dir : String) (files : List (String × Bytes)) (p : String)
    (hp : isDirectChild dir p = true) :
    lookupB (files.filter (fun e => !(isDirectChild dir e.1))) p = none := by
  induction files with
  | nil => rfl
  | cons e rest ih =>
    by_cases hch : isDirectChild dir e.1 = true
    · simp only [List.filter_cons, hch, Bool.not_true, Bool.false_eq_true, if_false]
      exact ih
    · rw [Bool.not_eq_true] at hch
      have hne : e.1 ≠ p := by
        intro hh
        rw [hh, hp] at hch
        exact absurd hch (by decide)
      simp only [List.filter_cons, hch, Bool.not_false, if_true, lookupB]
      rw [if_neg hne]
      exact ih

theorem lookupB_filter_nonchild (dir : String) (files : List (String × Bytes)) (p : String)
    (hp : isDirectChild dir p = false) :
    lookupB (files.filter (fun e => !(isDirectChild dir e.1))) p = lookupB files p := by
  induction files with
  | nil => rfl
  | cons e rest ih =>
    by_cases hch : isDirectChild dir e.1 = true
    · have hne : e.1 ≠ p := by
        intro hh
        rw [hh, hp] at hch
        exact absurd hch (by decide)
      simp only [List.filter_cons, hch, Bool.not_true, Bool.false_eq_true, if_false]
      rw [ih]
      simp only [lookupB]
      rw [if_neg hne]
    · rw [Bool.not_eq_true] at hch
      simp only [List.filter_cons, hch, Bool.not_false, if_true, lookupB]
      by_cases he : e.1 = p
      · rw [if_pos he, if_pos he]
      · rw [if_neg he, if_neg he]
        exact ih

/-- Claim C7: clearing a directory deletes exactly the files directly
contained in it — every direct child file is gone, every other path (including
files inside subdirectories) keeps its bytes, and the set of directories
(hence every subdirectory) is untouched. -/
theorem clearFolder_spec (fs : FS) (dir : String) :
    (∀ p, isDirectChild dir p = true → (clearFolder fs dir).readFile p = none) ∧
    (∀ p, isDirectChild dir p = false → (clearFolder fs dir).readFile p = fs.readFile p) ∧
    ((clearFolder fs dir).dirs = fs.dirs) := by
  refine ⟨?_, ?_, rfl⟩
  · intro p hp
    exact lookupB_filter_child_none dir fs.files p hp
  · intro p hp
    exact lookupB_filter_nonchild dir fs.files p hp

/-- Concrete state for the C7 witness: three files directly in `d`, one
subdirectory `d/sub` holding a file. -/
def fsD7 : FS :=
  { files := [("d/a.png", [1]), ("d/b.png", [2]), ("d/c.png", [3]), ("d/sub/x.png", [4])],
    dirs := ["d", "d/sub"] }

/-- Witness for C7: clearing `d` removes the three direct files and keeps the
subdirectory and its file. -/
theorem clearFolder_spec_witness :
    ((clearFolder fsD7 "d").readFile "d/a.png" = none) ∧
    ((clearFolder fsD7 "d").readFile "d/b.png" = none) ∧
    ((clearFolder fsD7 "d").readFile "d/c.png" = none) ∧
    ((clearFolder fsD7 "d").readFile "d/sub/x.png" = fsD7.readFile "d/sub/x.png") ∧
    ((clearFolder fsD7 "d").dirs = fsD7.dirs) := by
  have h := clearFolder_spec fsD7 "d"
  exact ⟨h.1 "d/a.png" (by decide), h.1 "d/b.png" (by decide), h.1 "d/c.png" (by decide),
    h.2.1 "d/sub/x.png" (by decide), h.2.2⟩
